import Mathlib

/-!
# epic command-line client: dispatcher model

A shallow embedding of `main.go`.  The program is a table of command handlers; every
handler validates its arguments, performs calls into external libraries and prints.
The external libraries (`go-client`, `gotils`, `shopspring/decimal`, `encoding/json`)
are not part of the repository, so their functions are the fields of a `Lib` record and
every handler is a function of that record.  A handler is a process over a `World`
holding the text written to stdout and stderr and the log of external calls; the
process either returns (`Step.cont`) or has terminated through `os.Exit`
(`Step.exited`).
-/

namespace Epic

/-! ## External libraries -/

/-- The external functions the dispatcher calls.  `Decimal` is `decimal.Decimal`,
`Value` is the universe of Go values handed to `encoding/json`; a Go `error` is
represented by its message. -/
structure Lib where
  Decimal : Type
  Value : Type
  /-- The constant `decimal.Zero`. -/
  Zero : Decimal
  /-- The function `decimal.NewFromString`. -/
  NewFromString : String → Except String Decimal
  /-- The function `client.SubmitTx(ctx, rpcUrl, privateKey, amount, to, codeRef, args)`. -/
  SubmitTx : String → String → Decimal → String → String → List String → Except String Value
  /-- The function `client.PublicKeyFromPrivate(ctx, privateKey)`. -/
  PublicKeyFromPrivate : String → Except String String
  /-- The function `client.GenerateKeyEncoded()`, returning `(pubKey, pk)`. -/
  GenerateKeyEncoded : Except String (String × String)
  /-- The function `client.GetState(ctx, rpcURL, addrHash)`. -/
  GetState : String → String → Except String Value
  /-- The function `client.GetObjectBytesByHash(ctx, rpcUrl, hash)`, the bytes as text. -/
  GetObjectBytesByHash : String → String → Except String String
  /-- The function `gotils.GetJSON(url, v)`: the value decoded into `v`. -/
  GetJSON : String → Except String Value
  /-- The field `State` of a `client.CodeStateResponse`. -/
  State : Value → Value
  /-- The function `json.Marshal(v)`. -/
  Marshal : Value → Except String String
  /-- The function `json.MarshalIndent(v, prefix, indent)`. -/
  MarshalIndent : Value → String → String → Except String String

/-- One call into an external client that reaches (or may reach) the network or the
key material. -/
inductive Call (L : Lib) where
  | submitTx (rpcUrl privateKey : String) (amount : L.Decimal) (toAddr codeRef : String)
      (args : List String)
  | publicKeyFromPrivate (privateKey : String)
  | generateKeyEncoded
  | getState (rpcURL addrHash : String)
  | getObjectBytesByHash (rpcUrl hash : String)
  | getJSON (url : String)

/-! ## Processes -/

/-- What a run has done so far. -/
structure World (L : Lib) where
  stdout : String
  stderr : String
  calls : List (Call L)

/-- The world at process start. -/
def World.init (L : Lib) : World L := ⟨"", "", []⟩

/-- Result of running a piece of the program: it returned `a`, or the process has
exited with the given status. -/
inductive Step (L : Lib) (α : Type) where
  | cont (a : α) (w : World L)
  | exited (code : Nat) (w : World L)

/-- The world a step ends in. -/
def Step.world {L : Lib} {α : Type} : Step L α → World L
  | .cont _ w => w
  | .exited _ w => w

/-- A piece of the program. -/
def Proc (L : Lib) (α : Type) : Type := World L → Step L α

/-- Return without effect. -/
def Proc.pure {L : Lib} {α : Type} (a : α) : Proc L α := fun w => .cont a w

/-- Sequencing: nothing runs after `os.Exit`. -/
def Proc.bind {L : Lib} {α β : Type} (p : Proc L α) (f : α → Proc L β) : Proc L β :=
  fun w =>
    match p w with
    | .cont a w1 => f a w1
    | .exited c w1 => .exited c w1

instance (L : Lib) : Monad (Proc L) where
  pure := Proc.pure
  bind := Proc.bind

/-- The exit status of the process when the program ends in this step: falling off the
end of `main` is status 0. -/
def Step.exitStatus {L : Lib} {α : Type} : Step L α → Nat
  | .cont _ _ => 0
  | .exited code _ => code

/-- Write text to stdout (`fmt.Printf` with the format already expanded). -/
def printf {L : Lib} (s : String) : Proc L Unit :=
  fun w => .cont () { w with stdout := w.stdout ++ s }

/-- Write a line to stdout (`fmt.Println` of one operand). -/
def println {L : Lib} (s : String) : Proc L Unit := printf (s ++ "\n")

/-- Write text to stderr (`fmt.Fprintf(os.Stderr, ...)`). -/
def eprintf {L : Lib} (s : String) : Proc L Unit :=
  fun w => .cont () { w with stderr := w.stderr ++ s }

/-- The call `os.Exit(code)`. -/
def osExit {L : Lib} {α : Type} (code : Nat) : Proc L α := fun w => .exited code w

/-- Record an external call. -/
def logCall {L : Lib} (c : Call L) : Proc L Unit :=
  fun w => .cont () { w with calls := w.calls ++ [c] }

/-- The function `fatalExit`: `ERROR: <err>` on stderr, then exit status 1. -/
def fatalExit {L : Lib} {α : Type} (err : String) : Proc L α := do
  eprintf ("ERROR: " ++ err ++ "\n")
  osExit 1

/-! ## Positional arguments (`cli.Args`) -/

/-- The method `Args.Get(n)`: the n-th argument, or the empty string. -/
def Args.Get (a : List String) (n : Nat) : String :=
  if a.length > n then a.getD n "" else ""

/-- The method `Args.First()`. -/
def Args.First (a : List String) : String := Args.Get a 0

/-- The method `Args.Tail()`: all but the first argument. -/
def Args.Tail (a : List String) : List String :=
  if a.length ≥ 2 then a.drop 1 else []

/-! ## External calls as processes -/

/-- Calling `client.SubmitTx`. -/
def clientSubmitTx (L : Lib) (rpcUrl privateKey : String) (amount : L.Decimal)
    (toAddr codeRef : String) (args : List String) : Proc L (Except String L.Value) := do
  logCall (.submitTx rpcUrl privateKey amount toAddr codeRef args)
  pure (L.SubmitTx rpcUrl privateKey amount toAddr codeRef args)

/-- Calling `client.PublicKeyFromPrivate`. -/
def clientPublicKeyFromPrivate (L : Lib) (privateKey : String) :
    Proc L (Except String String) := do
  logCall (.publicKeyFromPrivate privateKey)
  pure (L.PublicKeyFromPrivate privateKey)

/-- Calling `client.GenerateKeyEncoded`. -/
def clientGenerateKeyEncoded (L : Lib) : Proc L (Except String (String × String)) := do
  logCall .generateKeyEncoded
  pure L.GenerateKeyEncoded

/-- Calling `client.GetState`. -/
def clientGetState (L : Lib) (rpcURL addrHash : String) : Proc L (Except String L.Value) := do
  logCall (.getState rpcURL addrHash)
  pure (L.GetState rpcURL addrHash)

/-- Calling `client.GetObjectBytesByHash`. -/
def clientGetObjectBytesByHash (L : Lib) (rpcUrl hash : String) :
    Proc L (Except String String) := do
  logCall (.getObjectBytesByHash rpcUrl hash)
  pure (L.GetObjectBytesByHash rpcUrl hash)

/-- Calling `gotils.GetJSON`. -/
def gotilsGetJSON (L : Lib) (url : String) : Proc L (Except String L.Value) := do
  logCall (.getJSON url)
  pure (L.GetJSON url)

/-! ## Command handlers -/

/-- The `send` action; `privateKey` is `c.String("private-key")`. -/
def sendAction (L : Lib) (rpcUrl : String) (args : List String) (privateKey : String) :
    Proc L Unit := do
  if privateKey = "" then
    fatalExit "private key required"
  let amountS := Args.Get args 0
  let amount ← match L.NewFromString amountS with
    | .ok d => pure d
    | .error err => fatalExit err
  let toAddr := Args.Get args 2
  let tx ← match ← clientSubmitTx L rpcUrl privateKey amount toAddr "" [] with
    | .ok tx => pure tx
    | .error err => fatalExit err
  let bs ← match L.MarshalIndent tx "" "    " with
    | .ok bs => pure bs
    | .error err => fatalExit err
  println bs

/-- The `deploy` action. -/
def deployAction (L : Lib) (rpcUrl : String) (args : List String) (privateKey : String) :
    Proc L Unit := do
  if privateKey = "" then
    fatalExit "private key required"
  let codeRef := Args.Get args 0
  match ← clientSubmitTx L rpcUrl privateKey L.Zero "" codeRef [] with
    | .ok _ => pure ()
    | .error err => fatalExit err

/-- The `run` action. -/
def runAction (L : Lib) (rpcUrl : String) (args : List String) (privateKey : String) :
    Proc L Unit := do
  if privateKey = "" then
    fatalExit "private key required"
  match ← clientSubmitTx L rpcUrl privateKey L.Zero (Args.Get args 0) "" (Args.Tail args) with
    | .ok _ => pure ()
    | .error err => fatalExit err

/-- The function `GetTransactionDetails`. -/
def GetTransactionDetails (L : Lib) (rpcURL txHash _inputFormat : String) : Proc L Unit := do
  if txHash = "" then
    fatalExit "must provide tx ID"
  let url := rpcURL ++ "/tx/" ++ txHash
  let txR ← match ← gotilsGetJSON L url with
    | .ok txR => pure txR
    | .error err => fatalExit err
  let bs ← match L.MarshalIndent txR "" "    " with
    | .ok bs => pure bs
    | .error err => fatalExit err
  println bs

/-- The function `GetAddressDetails`. -/
def GetAddressDetails (L : Lib) (rpcURL addrHash : String) : Proc L Unit := do
  if addrHash = "" then
    fatalExit "must provide address"
  let stateM ← match ← clientGetState L rpcURL addrHash with
    | .ok stateM => pure stateM
    | .error err => fatalExit err
  let bs ← match L.MarshalIndent stateM "" "    " with
    | .ok bs => pure bs
    | .error err => fatalExit err
  println bs

/-- The function `strings.HasPrefix`. -/
def HasPrefix (s pre : String) : Bool := pre.data.isPrefixOf s.data

/-- The function `GetCodeState`.  `fmt.Println("url:", url)` separates its operands by a
blank. -/
def GetCodeState (L : Lib) (rpcURL key path : String) (_pretty : Bool) : Proc L Unit := do
  if key = "" then
    fatalExit "must provide address"
  if path ≠ "" then
    if !HasPrefix path "/" then
      fatalExit "path must start with /"
  let url := rpcURL ++ "/addr/" ++ key ++ "/state" ++ path
  println ("url: " ++ url)
  let resp ← match ← gotilsGetJSON L url with
    | .ok resp => pure resp
    | .error err => fatalExit err
  let jsonValue ← match L.Marshal (L.State resp) with
    | .ok jsonValue => pure jsonValue
    | .error err => fatalExit err
  println jsonValue

/-- The `transaction` action. -/
def transactionAction (L : Lib) (rpcUrl : String) (args : List String)
    (txInputFormat : String) : Proc L Unit :=
  GetTransactionDetails L rpcUrl (Args.First args) txInputFormat

/-- The `address` action; `privateKey` is the destination of the `private-key` flag. -/
def addressAction (L : Lib) (rpcUrl : String) (args : List String) (privateKey : String) :
    Proc L Unit := do
  let address := Args.First args
  let address ←
    if address = "" ∧ privateKey ≠ "" then
      match ← clientPublicKeyFromPrivate L privateKey with
        | .ok address => pure address
        | .error err => fatalExit err
    else pure address
  GetAddressDetails L rpcUrl address

/-- The `account create` action. -/
def accountCreateAction (L : Lib) : Proc L Unit := do
  let (pubKey, pk) ← match ← clientGenerateKeyEncoded L with
    | .ok r => pure r
    | .error err => fatalExit err
  printf ("Private key: " ++ pk ++ "\n")
  printf ("Public address: " ++ pubKey ++ "\n")

/-- The `cstate` action. -/
def cstateAction (L : Lib) (rpcUrl : String) (args : List String) (pretty : Bool) :
    Proc L Unit :=
  GetCodeState L rpcUrl (Args.Get args 0) (Args.Get args 1) pretty

/-- The `object` action. -/
def objectAction (L : Lib) (rpcUrl : String) (args : List String) : Proc L Unit := do
  let b ← match ← clientGetObjectBytesByHash L rpcUrl (Args.Get args 0) with
    | .ok b => pure b
    | .error err => fatalExit err
  println b

/-! ## The `env` command -/

/-- The constant `pkVarName`. -/
def pkVarName : String := "EPIC_PK"
/-- The constant `addrVarName`. -/
def addrVarName : String := "EPIC_ADDRESS"
/-- The constant `networkVarName`. -/
def networkVarName : String := "EPIC_NETWORK"
/-- The constant `rpcURLVarName`. -/
def rpcURLVarName : String := "EPIC_RPC_URL"
/-- The constant `envVarName`. -/
def envVarName : String := "EPIC_ENV"

/-- The bytes of a Go string (UTF-8). -/
def utf8Bytes (s : String) : List Nat :=
  s.data.flatMap fun c => (String.utf8EncodeChar c).map UInt8.toNat

/-- Lexicographic comparison of byte sequences. -/
def bytesLess : List Nat → List Nat → Bool
  | [], [] => false
  | [], _ :: _ => true
  | _ :: _, [] => false
  | a :: as, b :: bs => a < b || (a == b && bytesLess as bs)

/-- Go's `<` on strings (`sort.StringSlice.Less`): bytewise lexicographic. -/
def stringLess (s t : String) : Bool := bytesLess (utf8Bytes s) (utf8Bytes t)

/-- Inner loop of Go's `insertionSort`: the new element moves left while it is less than
its predecessor.  The sorted part is held reversed, nearest predecessor first. -/
def sinkLeft (x : String) : List String → List String
  | [] => [x]
  | y :: ys => if stringLess x y then y :: sinkLeft x ys else x :: y :: ys

/-- The function `sort.Strings`, which on slices of fewer than twelve elements (the only
use here has four) is `insertionSort`. -/
def sortStrings (data : List String) : List String :=
  (data.foldl (fun sortedRev x => sinkLeft x sortedRev) []).reverse

/-- The function `os.Getenv` over the process environment, a list of `NAME=value`
entries of which the first for a name counts: the value, or the empty string. -/
def Getenv (environ : List (String × String)) (name : String) : String :=
  (environ.lookup name).getD ""

/-- A `for _, x := range xs` loop. -/
def forRange {L : Lib} {α : Type} : List α → (α → Proc L Unit) → Proc L Unit
  | [], _ => pure ()
  | x :: xs, body => do
    body x
    forRange xs body

/-- The `env` action. -/
def envAction (L : Lib) (environ : List (String × String)) : Proc L Unit :=
  let varNames := [addrVarName, pkVarName, networkVarName, rpcURLVarName]
  let varNames := sortStrings varNames
  forRange varNames fun name =>
    printf (name ++ "=" ++ Getenv environ name ++ "\n")

/-! ## `main` -/

/-- What the command-line parser (`urfave/cli`) makes of `os.Args` and the environment:
the handler it selects with the positional arguments and the resolved values of the
command's flags (flag, else its environment variable, else its default), or no handler.
The parser writes its help and usage texts to stdout itself. -/
inductive Invocation where
  /-- The parser rejects the command line: it prints usage, `app.Run` returns `err`. -/
  | usageError (usage err : String)
  /-- No action of the table runs and the parser prints help or the version: `app.Run`
  returns nil. -/
  | help (text : String)
  /-- The first argument names no command of the table: the parser's default action
  ends in an exit error of status 3, which `app.Run` handles itself. -/
  | commandNotFound (command : String)
  | transaction (args : List String) (txInputFormat : String)
  | address (args : List String) (privateKey : String)
  | accountCreate
  | send (args : List String) (privateKey toFlag : String)
  | deploy (args : List String) (privateKey toFlag : String)
  | run (args : List String) (privateKey toFlag : String)
  | cstate (args : List String) (privateKey toFlag : String) (pretty : Bool)
  | object (args : List String) (pretty : Bool)
  | env

/-- The call `app.Run(os.Args)` with the command table of `main`: the returned error, if
any.  The actions have no result, so only the parser produces one. -/
def appRun (L : Lib) (rpcUrl : String) (environ : List (String × String)) :
    Invocation → Proc L (Option String)
  | .usageError usage err => do printf usage; pure (some err)
  | .help text => do printf text; pure none
  | .commandNotFound command => do
    eprintf ("No help topic for \x27" ++ command ++ "\x27\n")
    osExit 3
  | .transaction args txInputFormat => do
    transactionAction L rpcUrl args txInputFormat; pure none
  | .address args privateKey => do addressAction L rpcUrl args privateKey; pure none
  | .accountCreate => do accountCreateAction L; pure none
  | .send args privateKey _ => do sendAction L rpcUrl args privateKey; pure none
  | .deploy args privateKey _ => do deployAction L rpcUrl args privateKey; pure none
  | .run args privateKey _ => do runAction L rpcUrl args privateKey; pure none
  | .cstate args _ _ pretty => do cstateAction L rpcUrl args pretty; pure none
  | .object args _ => do objectAction L rpcUrl args; pure none
  | .env => do envAction L environ; pure none

/-- The function `main`; `rpcUrl` is the resolved global flag `rpc-url`. -/
def main (L : Lib) (rpcUrl : String) (environ : List (String × String))
    (inv : Invocation) : Proc L Unit := do
  let err ← appRun L rpcUrl environ inv
  match err with
  | some err => println ("ERROR on app.Run: " ++ err)
  | none => pure ()

/-! ## JSON validity

The reference for "the output parses as JSON" is `json.Valid` of `encoding/json`: a
scanner that is fed the text one character at a time and keeps a stack of the open
objects and arrays. -/

/-- What the scanner is in the middle of, for each open object or array. -/
inductive ParseState where
  | parseObjectKey
  | parseObjectValue
  | parseArrayValue
  deriving DecidableEq

/-- The step function the scanner will apply to the next character. -/
inductive ScanStep where
  | stateBeginValue | stateBeginValueOrEmpty | stateBeginStringOrEmpty | stateBeginString
  | stateEndValue | stateEndTop
  | stateInString | stateInStringEsc
  | stateInStringEscU | stateInStringEscU1 | stateInStringEscU12 | stateInStringEscU123
  | stateNeg | state1 | state0 | stateDot | stateDot0 | stateE | stateESign | stateE0
  | stateT | stateTr | stateTru
  | stateF | stateFa | stateFal | stateFals
  | stateN | stateNu | stateNul
  | stateError
  deriving DecidableEq

/-- The scanner: next step, stack of open composites (innermost first), and whether
the top-level value is complete. -/
structure Scanner where
  step : ScanStep
  parseState : List ParseState
  endTop : Bool
  deriving DecidableEq

/-- The scanner after `reset`. -/
def Scanner.reset : Scanner := ⟨.stateBeginValue, [], false⟩

/-- Record a syntax error: every later step fails. -/
def Scanner.error (s : Scanner) : Scanner := { s with step := .stateError }

/-- JSON white space. -/
def isSpace (c : Char) : Bool := c = ' ' || c = '\t' || c = '\r' || c = '\n'

/-- A decimal digit. -/
def isDigit (c : Char) : Bool := '0'.toNat ≤ c.toNat && c.toNat ≤ '9'.toNat

/-- A hexadecimal digit. -/
def isHex (c : Char) : Bool :=
  isDigit c || ('a'.toNat ≤ c.toNat && c.toNat ≤ 'f'.toNat)
    || ('A'.toNat ≤ c.toNat && c.toNat ≤ 'F'.toNat)

/-- The constant `maxNestingDepth`. -/
def maxNestingDepth : Nat := 10000

/-- Open a composite; nesting deeper than `maxNestingDepth` is an error. -/
def Scanner.pushParseState (s : Scanner) (newParseState : ParseState) : Scanner :=
  if (newParseState :: s.parseState).length ≤ maxNestingDepth then
    { s with parseState := newParseState :: s.parseState }
  else { s with parseState := newParseState :: s.parseState, step := .stateError }

/-- Close the innermost composite. -/
def Scanner.popParseState (s : Scanner) : Scanner :=
  match s.parseState.tail with
  | [] => { s with parseState := [], step := .stateEndTop, endTop := true }
  | ps => { s with parseState := ps, step := .stateEndValue }

/-- After the top-level value only white space may follow. -/
def stateEndTop (s : Scanner) (c : Char) : Scanner :=
  if !isSpace c then s.error else s

/-- After a value: what may follow depends on the innermost open composite. -/
def stateEndValue (s : Scanner) (c : Char) : Scanner :=
  match s.parseState with
  | [] => stateEndTop { s with step := .stateEndTop, endTop := true } c
  | ps :: rest =>
    if isSpace c then { s with step := .stateEndValue }
    else match ps with
      | .parseObjectKey =>
        if c = ':' then
          { s with parseState := .parseObjectValue :: rest, step := .stateBeginValue }
        else s.error
      | .parseObjectValue =>
        if c = ',' then
          { s with parseState := .parseObjectKey :: rest, step := .stateBeginString }
        else if c = '}' then s.popParseState
        else s.error
      | .parseArrayValue =>
        if c = ',' then { s with step := .stateBeginValue }
        else if c = ']' then s.popParseState
        else s.error

/-- At the beginning of a value. -/
def stateBeginValue (s : Scanner) (c : Char) : Scanner :=
  if isSpace c then s
  else if c = '{' then
    Scanner.pushParseState { s with step := .stateBeginStringOrEmpty } .parseObjectKey
  else if c = '[' then
    Scanner.pushParseState { s with step := .stateBeginValueOrEmpty } .parseArrayValue
  else if c = '"' then { s with step := .stateInString }
  else if c = '-' then { s with step := .stateNeg }
  else if c = '0' then { s with step := .state0 }
  else if c = 't' then { s with step := .stateT }
  else if c = 'f' then { s with step := .stateF }
  else if c = 'n' then { s with step := .stateN }
  else if isDigit c then { s with step := .state1 }
  else s.error

/-- After `[`. -/
def stateBeginValueOrEmpty (s : Scanner) (c : Char) : Scanner :=
  if isSpace c then s
  else if c = ']' then stateEndValue s c
  else stateBeginValue s c

/-- After `,` in an object: a key. -/
def stateBeginString (s : Scanner) (c : Char) : Scanner :=
  if isSpace c then s
  else if c = '"' then { s with step := .stateInString }
  else s.error

/-- After `{`. -/
def stateBeginStringOrEmpty (s : Scanner) (c : Char) : Scanner :=
  if isSpace c then s
  else if c = '}' then
    stateEndValue { s with parseState := .parseObjectValue :: s.parseState.tail } c
  else stateBeginString s c

/-- One character of input. -/
def Scanner.next (s : Scanner) (c : Char) : Scanner :=
  match s.step with
  | .stateBeginValue => stateBeginValue s c
  | .stateBeginValueOrEmpty => stateBeginValueOrEmpty s c
  | .stateBeginStringOrEmpty => stateBeginStringOrEmpty s c
  | .stateBeginString => stateBeginString s c
  | .stateEndValue => stateEndValue s c
  | .stateEndTop => stateEndTop s c
  | .stateInString =>
    if c = '"' then { s with step := .stateEndValue }
    else if c = '\\' then { s with step := .stateInStringEsc }
    else if c.toNat < 0x20 then s.error
    else s
  | .stateInStringEsc =>
    if c = 'b' || c = 'f' || c = 'n' || c = 'r' || c = 't' || c = '\\' || c = '/' || c = '"'
    then { s with step := .stateInString }
    else if c = 'u' then { s with step := .stateInStringEscU }
    else s.error
  | .stateInStringEscU => if isHex c then { s with step := .stateInStringEscU1 } else s.error
  | .stateInStringEscU1 => if isHex c then { s with step := .stateInStringEscU12 } else s.error
  | .stateInStringEscU12 => if isHex c then { s with step := .stateInStringEscU123 } else s.error
  | .stateInStringEscU123 => if isHex c then { s with step := .stateInString } else s.error
  | .stateNeg =>
    if c = '0' then { s with step := .state0 }
    else if isDigit c then { s with step := .state1 }
    else s.error
  | .state1 =>
    if isDigit c then s
    else if c = '.' then { s with step := .stateDot }
    else if c = 'e' || c = 'E' then { s with step := .stateE }
    else stateEndValue s c
  | .state0 =>
    if c = '.' then { s with step := .stateDot }
    else if c = 'e' || c = 'E' then { s with step := .stateE }
    else stateEndValue s c
  | .stateDot => if isDigit c then { s with step := .stateDot0 } else s.error
  | .stateDot0 =>
    if isDigit c then s
    else if c = 'e' || c = 'E' then { s with step := .stateE }
    else stateEndValue s c
  | .stateE =>
    if c = '+' || c = '-' then { s with step := .stateESign }
    else if isDigit c then { s with step := .stateE0 }
    else s.error
  | .stateESign => if isDigit c then { s with step := .stateE0 } else s.error
  | .stateE0 => if isDigit c then s else stateEndValue s c
  | .stateT => if c = 'r' then { s with step := .stateTr } else s.error
  | .stateTr => if c = 'u' then { s with step := .stateTru } else s.error
  | .stateTru => if c = 'e' then { s with step := .stateEndValue } else s.error
  | .stateF => if c = 'a' then { s with step := .stateFa } else s.error
  | .stateFa => if c = 'l' then { s with step := .stateFal } else s.error
  | .stateFal => if c = 's' then { s with step := .stateFals } else s.error
  | .stateFals => if c = 'e' then { s with step := .stateEndValue } else s.error
  | .stateN => if c = 'u' then { s with step := .stateNu } else s.error
  | .stateNu => if c = 'l' then { s with step := .stateNul } else s.error
  | .stateNul => if c = 'l' then { s with step := .stateEndValue } else s.error
  | .stateError => s

/-- The end of the input (`scanner.eof`): the text was one complete value. -/
def Scanner.eof (s : Scanner) : Bool :=
  if s.step = .stateError then false
  else if s.endTop then true
  else
    let s1 := s.next ' '
    s1.endTop && s1.step ≠ .stateError

/-- The function `json.Valid` on the text written. -/
def jsonValid (data : String) : Bool :=
  (data.data.foldl Scanner.next Scanner.reset).eof

/-! ## A sample library

An instance of the external libraries on which the handlers can be run: amounts are
whole numbers, values are carried as their JSON text, every request succeeds. -/

/-- Sample `decimal.NewFromString`: whole numbers only. -/
def sampleNewFromString (s : String) : Except String Int :=
  if s.data ≠ [] ∧ s.data.all isDigit then
    .ok (s.data.foldl (fun n c => 10 * n + ((c.toNat : Int) - 48)) 0)
  else .error ("can't convert " ++ s ++ " to decimal")

/-- The sample library. -/
def sampleLib : Lib where
  Decimal := Int
  Value := String
  Zero := 0
  NewFromString := sampleNewFromString
  SubmitTx := fun _ _ _ _ _ _ => .ok "\x7b\"id\": \"tx1\"\x7d"
  PublicKeyFromPrivate := fun k => .ok ("pub-" ++ k)
  GenerateKeyEncoded := .ok ("pub-k1", "k1")
  GetState := fun _ _ => .ok "\x7b\"balance\": \"7\"\x7d"
  GetObjectBytesByHash := fun _ _ => .ok "object"
  GetJSON := fun _ => .ok "\x7b\"n\": 1\x7d"
  State := fun v => v
  Marshal := fun v => .ok v
  MarshalIndent := fun v _ _ => .ok v

/-! ## Fail-fast outcomes -/

/-- A piece of the program that ends the way `fatalExit` makes a handler end: it returns
having written nothing to stderr, or the process has exited with status 1 after one
`ERROR:` line on stderr. -/
def Proc.FailFast {L : Lib} {α : Type} (p : Proc L α) : Prop :=
  ∀ w : World L,
    (∃ a w1, p w = .cont a w1 ∧ w1.stderr = w.stderr)
    ∨ (∃ w1 msg, p w = .exited 1 w1 ∧ w1.stderr = w.stderr ++ ("ERROR: " ++ msg ++ "\n"))

end Epic

/-! # Theorems -/

namespace Epic

/-! ## Running the primitives -/

section run
variable {L : Lib} {α β : Type}

@[simp] theorem run_bind (p : Proc L α) (f : α → Proc L β) (w : World L) :
    (p >>= f) w
      = match p w with
        | .cont a w1 => f a w1
        | .exited c w1 => .exited c w1 := rfl

@[simp] theorem run_pure (a : α) (w : World L) : (pure a : Proc L α) w = .cont a w := rfl

@[simp] theorem printf_run (s : String) (w : World L) :
    printf s w = .cont () { w with stdout := w.stdout ++ s } := rfl

@[simp] theorem println_run (s : String) (w : World L) :
    println s w = .cont () { w with stdout := w.stdout ++ (s ++ "\n") } := rfl

@[simp] theorem fatalExit_run (err : String) (w : World L) :
    (fatalExit err : Proc L α) w
      = .exited 1 { w with stderr := w.stderr ++ ("ERROR: " ++ err ++ "\n") } := rfl

@[simp] theorem clientSubmitTx_run (rpcUrl privateKey : String) (amount : L.Decimal)
    (toAddr codeRef : String) (args : List String) (w : World L) :
    clientSubmitTx L rpcUrl privateKey amount toAddr codeRef args w
      = .cont (L.SubmitTx rpcUrl privateKey amount toAddr codeRef args)
          { w with calls := w.calls ++ [.submitTx rpcUrl privateKey amount toAddr codeRef args] } :=
  rfl

@[simp] theorem clientPublicKeyFromPrivate_run (privateKey : String) (w : World L) :
    clientPublicKeyFromPrivate L privateKey w
      = .cont (L.PublicKeyFromPrivate privateKey)
          { w with calls := w.calls ++ [.publicKeyFromPrivate privateKey] } := rfl

@[simp] theorem clientGetState_run (rpcURL addrHash : String) (w : World L) :
    clientGetState L rpcURL addrHash w
      = .cont (L.GetState rpcURL addrHash)
          { w with calls := w.calls ++ [.getState rpcURL addrHash] } := rfl

@[simp] theorem gotilsGetJSON_run (url : String) (w : World L) :
    gotilsGetJSON L url w
      = .cont (L.GetJSON url) { w with calls := w.calls ++ [.getJSON url] } := rfl

end run

/-! ## Positional arguments -/

theorem Args.Get_eq_getD (a : List String) (n : Nat) : Args.Get a n = a.getD n "" := by
  unfold Args.Get
  split
  · rfl
  · rename_i h
    simp only [gt_iff_lt, not_lt] at h
    simp [List.getD, List.getElem?_eq_none h]

theorem Args.Tail_eq_tail (a : List String) : Args.Tail a = a.tail := by
  unfold Args.Tail
  match a with
  | [] => simp
  | [_] => simp
  | _ :: _ :: _ => simp

/-! ## Missing private key -/

/-- Claim C1: in `send`, `deploy` and `run`, for every argument list and RPC URL, an empty
resolved private key makes the handler stop through `fatalExit` with the message
`private key required` on stderr and exit status 1; nothing is written to stdout and the
call log is unchanged, so `client.SubmitTx` (or any other external call) is never made.
The same holds for the whole program started on such a command line. -/
theorem private_key_required (L : Lib) (rpcUrl : String) (args : List String)
    (toFlag : String) (environ : List (String × String)) (w : World L) :
    sendAction L rpcUrl args "" w
        = .exited 1 { w with stderr := w.stderr ++ "ERROR: private key required\n" }
    ∧ deployAction L rpcUrl args "" w
        = .exited 1 { w with stderr := w.stderr ++ "ERROR: private key required\n" }
    ∧ runAction L rpcUrl args "" w
        = .exited 1 { w with stderr := w.stderr ++ "ERROR: private key required\n" }
    ∧ main L rpcUrl environ (.send args "" toFlag) (World.init L)
        = .exited 1 ⟨"", "ERROR: private key required\n", []⟩
    ∧ main L rpcUrl environ (.deploy args "" toFlag) (World.init L)
        = .exited 1 ⟨"", "ERROR: private key required\n", []⟩
    ∧ main L rpcUrl environ (.run args "" toFlag) (World.init L)
        = .exited 1 ⟨"", "ERROR: private key required\n", []⟩ := by
  refine ⟨?_, ?_, ?_, ?_, ?_, ?_⟩ <;>
    simp [main, appRun, sendAction, deployAction, runAction, World.init]

/-! ## The `send` command -/

/-- What `send` does once the private key is present and the amount parses. -/
theorem sendAction_run (L : Lib) (rpcUrl : String) (args : List String) (k : String)
    (d : L.Decimal) (w : World L) (hk : k ≠ "")
    (hd : L.NewFromString (Args.Get args 0) = .ok d) :
    sendAction L rpcUrl args k w
      = match L.SubmitTx rpcUrl k d (Args.Get args 2) "" [] with
        | .error err =>
          .exited 1 { w with
            stderr := w.stderr ++ ("ERROR: " ++ err ++ "\n")
            calls := w.calls ++ [.submitTx rpcUrl k d (Args.Get args 2) "" []] }
        | .ok tx =>
          match L.MarshalIndent tx "" "    " with
          | .error err =>
            .exited 1 { w with
              stderr := w.stderr ++ ("ERROR: " ++ err ++ "\n")
              calls := w.calls ++ [.submitTx rpcUrl k d (Args.Get args 2) "" []] }
          | .ok bs =>
            .cont () { w with
              stdout := w.stdout ++ (bs ++ "\n")
              calls := w.calls ++ [.submitTx rpcUrl k d (Args.Get args 2) "" []] } := by
  cases h1 : L.SubmitTx rpcUrl k d (Args.Get args 2) "" [] with
  | error err => simp [sendAction, hk, hd, h1]
  | ok tx => cases h2 : L.MarshalIndent tx "" "    " <;> simp [sendAction, hk, hd, h1, h2]

/-- The calls `send` makes once the private key is present and the amount parses. -/
theorem sendAction_calls (L : Lib) (rpcUrl : String) (args : List String) (k : String)
    (d : L.Decimal) (w : World L) (hk : k ≠ "")
    (hd : L.NewFromString (Args.Get args 0) = .ok d) :
    (sendAction L rpcUrl args k w).world.calls
      = w.calls ++ [.submitTx rpcUrl k d (Args.Get args 2) "" []] := by
  rw [sendAction_run L rpcUrl args k d w hk hd]
  cases h1 : L.SubmitTx rpcUrl k d (Args.Get args 2) "" [] with
  | error err => rfl
  | ok tx => cases h2 : L.MarshalIndent tx "" "    " <;> simp [Step.world, h2]

/-- The world of a run of `main` is the world its handler ends in, but for the line
written after a parser error. -/
theorem main_calls (L : Lib) (rpcUrl : String) (environ : List (String × String))
    (inv : Invocation) (w : World L) :
    (main L rpcUrl environ inv w).world.calls = (appRun L rpcUrl environ inv w).world.calls := by
  simp only [main, run_bind]
  cases appRun L rpcUrl environ inv w with
  | exited c w1 => rfl
  | cont err w1 => cases err <;> rfl

/-- The calls of `app.Run` on a `send` command line are those of the `send` action. -/
theorem appRun_send_calls (L : Lib) (rpcUrl : String) (environ : List (String × String))
    (args : List String) (k toFlag : String) (w : World L) :
    (appRun L rpcUrl environ (.send args k toFlag) w).world.calls
      = (sendAction L rpcUrl args k w).world.calls := by
  simp only [appRun, run_bind]
  cases sendAction L rpcUrl args k w <;> rfl

/-- Claim C3: `send` with positional arguments `[a, "to", r]`, where `a` parses as the
decimal `d`, and with a non-empty private key `k` calls `client.SubmitTx` exactly once:
the call log of the run is the single call with private key `k`, amount `d`, recipient
`r`, empty code reference and no extra arguments, whatever that call returns. -/
theorem send_submits_transfer_once (L : Lib) (rpcUrl a r k : String) (d : L.Decimal)
    (hk : k ≠ "") (hd : L.NewFromString a = .ok d) :
    (sendAction L rpcUrl [a, "to", r] k (World.init L)).world.calls
      = [.submitTx rpcUrl k d r "" []] := by
  have h := sendAction_calls L rpcUrl [a, "to", r] k d (World.init L) hk hd
  simpa [World.init, Args.Get] using h

/-- Witness of claim C3: `send 10 to someAddress` with key `k1` on the sample library
submits amount exactly 10 to `someAddress`. -/
theorem send_submits_transfer_once_witness :
    (sendAction sampleLib "http://localhost:8080" ["10", "to", "someAddress"] "k1"
        (World.init sampleLib)).world.calls
      = [.submitTx "http://localhost:8080" "k1" (10 : Int) "someAddress" "" []] :=
  send_submits_transfer_once sampleLib "http://localhost:8080" "10" "someAddress" "k1"
    (10 : Int) (by decide) rfl

/-- Claim C10: in `send` the recipient handed to `client.SubmitTx` is the third
positional argument, or the empty string when there are fewer than three.  It does not
depend on the second positional argument nor on the resolved `--to` flag: replacing
either leaves the call unchanged.  With two arguments `[a, b]` the transfer is submitted
with the empty recipient and nothing is written to stderr before the call. -/
theorem send_recipient_is_third_argument (L : Lib) (rpcUrl : String)
    (environ : List (String × String)) (args : List String) (k toFlag : String)
    (d : L.Decimal) (w : World L) (hk : k ≠ "")
    (hd : L.NewFromString (Args.Get args 0) = .ok d) :
    (main L rpcUrl environ (.send args k toFlag) w).world.calls
        = w.calls ++ [.submitTx rpcUrl k d (args.getD 2 "") "" []]
    ∧ (∀ (second toFlag2 : String),
        (main L rpcUrl environ (.send (args.set 1 second) k toFlag2) w).world.calls
          = (main L rpcUrl environ (.send args k toFlag) w).world.calls)
    ∧ (args.length < 3 →
        (main L rpcUrl environ (.send args k toFlag) w).world.calls
          = w.calls ++ [.submitTx rpcUrl k d "" "" []]) := by
  have key : ∀ (xs : List String) (tf : String),
      L.NewFromString (Args.Get xs 0) = .ok d →
      (main L rpcUrl environ (.send xs k tf) w).world.calls
        = w.calls ++ [.submitTx rpcUrl k d (xs.getD 2 "") "" []] := by
    intro xs tf hx
    rw [main_calls, appRun_send_calls, sendAction_calls L rpcUrl xs k d w hk hx,
      Args.Get_eq_getD]
  have h0 : ∀ second : String, Args.Get (args.set 1 second) 0 = Args.Get args 0 := by
    intro second
    match args with
    | [] => rfl
    | [_] => rfl
    | _ :: _ :: _ => rfl
  have h2 : ∀ second : String, (args.set 1 second).getD 2 "" = args.getD 2 "" := by
    intro second
    match args with
    | [] => rfl
    | [_] => rfl
    | _ :: _ :: _ => rfl
  refine ⟨key args toFlag hd, ?_, ?_⟩
  · intro second toFlag2
    rw [key args toFlag hd, key (args.set 1 second) toFlag2 (by rw [h0]; exact hd), h2]
  · intro hlen
    rw [key args toFlag hd]
    have : args.getD 2 "" = "" := by
      simp [List.getD, List.getElem?_eq_none (by omega : args.length ≤ 2)]
    rw [this]

/-- Witness of claim C10: `send 10 someAddress` with key `k1` and `--to` set submits a
transfer to the empty recipient. -/
theorem send_recipient_is_third_argument_witness :
    (main sampleLib "http://localhost:8080" [] (.send ["10", "someAddress"] "k1" "other")
        (World.init sampleLib)).world.calls
      = (World.init sampleLib).calls
          ++ [.submitTx "http://localhost:8080" "k1" (10 : Int) "" "" []] :=
  (send_recipient_is_third_argument sampleLib "http://localhost:8080" []
    ["10", "someAddress"] "k1" "other" (10 : Int) (World.init sampleLib)
    (by decide) rfl).2.2 (by decide)

/-! ## The `deploy` and `run` commands -/

/-- Claim C8: a successful `deploy` and a successful `run` (non-empty private key,
`client.SubmitTx` returns a transaction; each command under the success of its own call
only) return with stdout and stderr untouched, the
returned transaction being dropped; the only effect is the one `SubmitTx` call, which for
`deploy` carries amount zero, the empty recipient, the first positional argument as code
reference and no extra arguments, and for `run` carries amount zero, the first positional
argument as recipient, the empty code reference and the remaining positional arguments. -/
theorem deploy_run_print_nothing (L : Lib) (rpcUrl : String) (args : List String)
    (k : String) (w : World L) (hk : k ≠ "") :
    (∀ tx : L.Value,
      L.SubmitTx rpcUrl k L.Zero "" (args.getD 0 "") [] = .ok tx →
      deployAction L rpcUrl args k w
        = .cont () { w with
            calls := w.calls ++ [.submitTx rpcUrl k L.Zero "" (args.getD 0 "") []] })
    ∧ (∀ tx : L.Value,
        L.SubmitTx rpcUrl k L.Zero (args.getD 0 "") "" args.tail = .ok tx →
        runAction L rpcUrl args k w
          = .cont () { w with
              calls := w.calls
                ++ [.submitTx rpcUrl k L.Zero (args.getD 0 "") "" args.tail] }) := by
  constructor
  · intro tx hdeploy
    rw [← Args.Get_eq_getD] at hdeploy ⊢
    simp [deployAction, hk, hdeploy]
  · intro tx hrun
    rw [← Args.Get_eq_getD] at hrun ⊢
    rw [← Args.Tail_eq_tail] at hrun ⊢
    simp [runAction, hk, hrun]

/-- Witness of claim C8: `deploy img` and `run img 1 2` on the sample library. -/
theorem deploy_run_print_nothing_witness :
    deployAction sampleLib "http://localhost:8080" ["img", "1", "2"] "k1" (World.init sampleLib)
        = .cont () { World.init sampleLib with
            calls := (World.init sampleLib).calls
              ++ [.submitTx "http://localhost:8080" "k1" sampleLib.Zero ""
                    (["img", "1", "2"].getD 0 "") []] }
    ∧ runAction sampleLib "http://localhost:8080" ["img", "1", "2"] "k1" (World.init sampleLib)
        = .cont () { World.init sampleLib with
            calls := (World.init sampleLib).calls
              ++ [.submitTx "http://localhost:8080" "k1" sampleLib.Zero
                    (["img", "1", "2"].getD 0 "") "" ["img", "1", "2"].tail] } :=
  ⟨(deploy_run_print_nothing sampleLib "http://localhost:8080" ["img", "1", "2"] "k1"
      (World.init sampleLib) (by decide)).1 "\x7b\"id\": \"tx1\"\x7d" rfl,
   (deploy_run_print_nothing sampleLib "http://localhost:8080" ["img", "1", "2"] "k1"
      (World.init sampleLib) (by decide)).2 "\x7b\"id\": \"tx1\"\x7d" rfl⟩

/-! ## The `cstate` command -/

/-- The URL `GetCodeState` requests. -/
theorem GetCodeState_run (L : Lib) (rpcURL key path : String) (pretty : Bool) (w : World L) :
    GetCodeState L rpcURL key path pretty w
      = if key = "" then
          .exited 1 { w with stderr := w.stderr ++ "ERROR: must provide address\n" }
        else if path ≠ "" ∧ HasPrefix path "/" = false then
          .exited 1 { w with stderr := w.stderr ++ "ERROR: path must start with /\n" }
        else
          match L.GetJSON (rpcURL ++ "/addr/" ++ key ++ "/state" ++ path) with
          | .error err =>
            .exited 1
              { stdout := w.stdout ++ ("url: " ++ (rpcURL ++ "/addr/" ++ key ++ "/state" ++ path)
                  ++ "\n")
                stderr := w.stderr ++ ("ERROR: " ++ err ++ "\n")
                calls := w.calls ++ [.getJSON (rpcURL ++ "/addr/" ++ key ++ "/state" ++ path)] }
          | .ok resp =>
            match L.Marshal (L.State resp) with
            | .error err =>
              .exited 1
                { stdout := w.stdout
                    ++ ("url: " ++ (rpcURL ++ "/addr/" ++ key ++ "/state" ++ path) ++ "\n")
                  stderr := w.stderr ++ ("ERROR: " ++ err ++ "\n")
                  calls := w.calls
                    ++ [.getJSON (rpcURL ++ "/addr/" ++ key ++ "/state" ++ path)] }
            | .ok jsonValue =>
              .cont ()
                { stdout := w.stdout
                    ++ ("url: " ++ (rpcURL ++ "/addr/" ++ key ++ "/state" ++ path) ++ "\n")
                    ++ (jsonValue ++ "\n")
                  stderr := w.stderr
                  calls := w.calls
                    ++ [.getJSON (rpcURL ++ "/addr/" ++ key ++ "/state" ++ path)] } := by
  by_cases hkey : key = ""
  · simp [GetCodeState, hkey]
  by_cases hpath : path = ""
  · subst hpath
    cases h1 : L.GetJSON (rpcURL ++ "/addr/" ++ key ++ "/state" ++ "") with
    | error err => simp_all [GetCodeState]
    | ok resp => cases h2 : L.Marshal (L.State resp) <;> simp_all [GetCodeState]
  by_cases hpre : HasPrefix path "/" = true
  · cases h1 : L.GetJSON (rpcURL ++ "/addr/" ++ key ++ "/state" ++ path) with
    | error err => simp [GetCodeState, hkey, hpath, hpre, h1]
    | ok resp =>
      cases h2 : L.Marshal (L.State resp) <;> simp [GetCodeState, hkey, hpath, hpre, h1, h2]
  · simp [GetCodeState, hkey, hpath, hpre]

/-- The calls `GetCodeState` makes once validation has passed: one request. -/
theorem GetCodeState_calls (L : Lib) (rpcURL key path : String) (pretty : Bool) (w : World L)
    (hkey : key ≠ "") (hpath : path = "" ∨ HasPrefix path "/" = true) :
    (GetCodeState L rpcURL key path pretty w).world.calls
      = w.calls ++ [.getJSON (rpcURL ++ "/addr/" ++ key ++ "/state" ++ path)] := by
  have hguard : ¬ (path ≠ "" ∧ HasPrefix path "/" = false) := by
    rintro ⟨h1, h2⟩
    rcases hpath with h | h
    · exact h1 h
    · rw [h] at h2; cases h2
  rw [GetCodeState_run, if_neg hkey, if_neg hguard]
  cases h1 : L.GetJSON (rpcURL ++ "/addr/" ++ key ++ "/state" ++ path) with
  | error err => rfl
  | ok resp => cases h2 : L.Marshal (L.State resp) <;> simp [h2, Step.world]

/-- Claim C2: for every RPC URL, key and pretty flag, a non-empty path that does not start
with `/` makes `GetCodeState` stop through `fatalExit` (message `must provide address`
when the key is empty, `path must start with /` otherwise) with stdout and the call log
untouched, so `gotils.GetJSON` is not reached; and with a non-empty key and a path that is
empty or starts with `/` the call log grows by exactly one request, for the URL
`rpcURL/addr/key/state` followed by the path. -/
theorem cstate_path_validation (L : Lib) (rpcURL key path : String) (pretty : Bool)
    (w : World L) :
    (path ≠ "" → HasPrefix path "/" = false →
      GetCodeState L rpcURL key path pretty w
        = .exited 1 { w with
            stderr := w.stderr
              ++ (if key = "" then "ERROR: must provide address\n"
                  else "ERROR: path must start with /\n") })
    ∧ (key ≠ "" → (path = "" ∨ HasPrefix path "/" = true) →
        (GetCodeState L rpcURL key path pretty w).world.calls
          = w.calls ++ [.getJSON (rpcURL ++ "/addr/" ++ key ++ "/state" ++ path)]) := by
  constructor
  · intro hne hpre
    rw [GetCodeState_run]
    by_cases hkey : key = ""
    · simp [hkey]
    · simp [hkey, hne, hpre]
  · intro hkey hpath
    exact GetCodeState_calls L rpcURL key path pretty w hkey hpath

/-- Witness of claim C2: `cstate abc balance` fails validation without a request,
`cstate abc /balance` issues one request. -/
theorem cstate_path_validation_witness :
    GetCodeState sampleLib "http://localhost:8080" "abc" "balance" false (World.init sampleLib)
        = .exited 1 { World.init sampleLib with
            stderr := (World.init sampleLib).stderr
              ++ (if "abc" = "" then "ERROR: must provide address\n"
                  else "ERROR: path must start with /\n") }
    ∧ (GetCodeState sampleLib "http://localhost:8080" "abc" "/balance" false
          (World.init sampleLib)).world.calls
        = (World.init sampleLib).calls
            ++ [.getJSON ("http://localhost:8080" ++ "/addr/" ++ "abc" ++ "/state" ++ "/balance")] :=
  ⟨(cstate_path_validation sampleLib "http://localhost:8080" "abc" "balance" false
      (World.init sampleLib)).1 (by decide) (by decide),
   (cstate_path_validation sampleLib "http://localhost:8080" "abc" "/balance" false
      (World.init sampleLib)).2 (by decide) (Or.inr (by decide))⟩

/-- What a successful `GetCodeState` has written. -/
theorem GetCodeState_success (L : Lib) (rpcURL key path : String) (pretty : Bool)
    (w w1 : World L) (h : GetCodeState L rpcURL key path pretty w = .cont () w1) :
    ∃ resp jsonValue,
      L.GetJSON (rpcURL ++ "/addr/" ++ key ++ "/state" ++ path) = .ok resp
      ∧ L.Marshal (L.State resp) = .ok jsonValue
      ∧ w1.stdout
          = w.stdout ++ ("url: " ++ (rpcURL ++ "/addr/" ++ key ++ "/state" ++ path) ++ "\n")
              ++ (jsonValue ++ "\n") := by
  rw [GetCodeState_run] at h
  split_ifs at h
  cases h1 : L.GetJSON (rpcURL ++ "/addr/" ++ key ++ "/state" ++ path) with
  | error err => rw [h1] at h; cases h
  | ok resp =>
    cases h2 : L.Marshal (L.State resp) with
    | error err => rw [h1] at h; simp only [h2] at h; cases h
    | ok jsonValue =>
      rw [h1] at h
      simp only [h2] at h
      refine ⟨resp, jsonValue, rfl, h2, ?_⟩
      cases h
      rfl

/-- Claim C9: the `pretty` flag of `cstate` has no effect.  With the flag set and unset
`GetCodeState`, and the whole program on a `cstate` command line, end in the same step
(same success or failure, same stdout, stderr and calls); the only request either can make
is for `rpcURL/addr/key/state` followed by the path; and when the command succeeds the
text written is the `url:` line followed by the `json.Marshal` (compact) encoding of the
response's `State` and a newline. -/
theorem cstate_pretty_has_no_effect (L : Lib) (rpcURL key path : String)
    (environ : List (String × String)) (args : List String) (privateKey toFlag : String)
    (w : World L) :
    GetCodeState L rpcURL key path true w = GetCodeState L rpcURL key path false w
    ∧ main L rpcURL environ (.cstate args privateKey toFlag true) w
        = main L rpcURL environ (.cstate args privateKey toFlag false) w
    ∧ (∀ pretty : Bool,
        (GetCodeState L rpcURL key path pretty w).world.calls = w.calls
        ∨ (GetCodeState L rpcURL key path pretty w).world.calls
            = w.calls ++ [.getJSON (rpcURL ++ "/addr/" ++ key ++ "/state" ++ path)])
    ∧ (∀ (pretty : Bool) (w1 : World L),
        GetCodeState L rpcURL key path pretty w = .cont () w1 →
        ∃ resp jsonValue,
          L.GetJSON (rpcURL ++ "/addr/" ++ key ++ "/state" ++ path) = .ok resp
          ∧ L.Marshal (L.State resp) = .ok jsonValue
          ∧ w1.stdout
              = w.stdout ++ ("url: " ++ (rpcURL ++ "/addr/" ++ key ++ "/state" ++ path) ++ "\n")
                  ++ (jsonValue ++ "\n")) := by
  refine ⟨rfl, rfl, ?_, ?_⟩
  · intro pretty
    rw [GetCodeState_run]
    split_ifs
    · exact Or.inl rfl
    · exact Or.inl rfl
    · cases h1 : L.GetJSON (rpcURL ++ "/addr/" ++ key ++ "/state" ++ path) with
      | error err => exact Or.inr rfl
      | ok resp => cases h2 : L.Marshal (L.State resp) <;> simp [h2, Step.world]
  · intro pretty w1 h
    exact GetCodeState_success L rpcURL key path pretty w w1 h

/-! ## JSON validity of what `cstate` writes -/

/-- Once the scanner has failed it stays failed. -/
theorem Scanner.foldl_next_error (cs : List Char) (s : Scanner)
    (h : s.step = .stateError) : (cs.foldl Scanner.next s).step = .stateError := by
  induction cs generalizing s with
  | nil => exact h
  | cons c cs ih =>
    have hs : s.next c = s := by
      unfold Scanner.next
      rw [h]
    rw [List.foldl_cons, hs]
    exact ih s h

/-- A text that begins with the letter `u` is not JSON. -/
theorem jsonValid_url_line (data : String) (rest : List Char)
    (h : data.data = 'u' :: rest) : jsonValid data = false := by
  have herr : (Scanner.reset.next 'u').step = .stateError := by decide
  have hstep := Scanner.foldl_next_error rest (Scanner.reset.next 'u') herr
  unfold jsonValid
  rw [h, List.foldl_cons]
  unfold Scanner.eof
  rw [if_pos hstep]

/-- The recogniser accepts a JSON document and rejects a malformed one. -/
theorem jsonValid_examples :
    jsonValid "\x7b\"a\": [1, -2.5e3, true, null, \"x\\u00e9\\n\"], \"b\": \x7b\x7d\x7d\n" = true
    ∧ jsonValid "\x7b\"a\": [1, 2,]\x7d" = false
    ∧ jsonValid "01" = false
    ∧ jsonValid "[] x" = false
    ∧ jsonValid "" = false := by
  refine ⟨?_, ?_, ?_, ?_, ?_⟩ <;> decide

/-- Claim C6 on `cstate`: whenever `GetCodeState` succeeds, the complete text it has
written to stdout begins with the line `url: <url>` and is therefore rejected by the JSON
scanner, whatever the library returned. -/
theorem cstate_stdout_is_not_json (L : Lib) (rpcURL key path : String) (pretty : Bool)
    (w1 : World L)
    (h : GetCodeState L rpcURL key path pretty (World.init L) = .cont () w1) :
    jsonValid w1.stdout = false := by
  obtain ⟨resp, jsonValue, -, -, hout⟩ :=
    GetCodeState_success L rpcURL key path pretty (World.init L) w1 h
  apply jsonValid_url_line w1.stdout
    ("rl: " ++ (rpcURL ++ "/addr/" ++ key ++ "/state" ++ path) ++ "\n" ++ (jsonValue ++ "\n")).data
  rw [hout]
  simp [World.init, String.data_append]

/-- Witness of claim C6 on `cstate`: `cstate abc /` on the sample library succeeds, the
JSON it prints follows a `url:` line, and the whole output is not JSON. -/
theorem cstate_stdout_is_not_json_witness :
    GetCodeState sampleLib "http://localhost:8080" "abc" "/" false (World.init sampleLib)
        = .cont () ⟨"url: http://localhost:8080/addr/abc/state/\n\x7b\"n\": 1\x7d\n", "",
            [.getJSON "http://localhost:8080/addr/abc/state/"]⟩
    ∧ jsonValid "url: http://localhost:8080/addr/abc/state/\n\x7b\"n\": 1\x7d\n" = false :=
  ⟨rfl, cstate_stdout_is_not_json sampleLib "http://localhost:8080" "abc" "/" false
    ⟨"url: http://localhost:8080/addr/abc/state/\n\x7b\"n\": 1\x7d\n", "",
      [.getJSON "http://localhost:8080/addr/abc/state/"]⟩ rfl⟩

/-! ## The `env` command -/

/-- The order in which `env` goes through the names. -/
theorem sortStrings_varNames :
    sortStrings [addrVarName, pkVarName, networkVarName, rpcURLVarName]
      = ["EPIC_ADDRESS", "EPIC_NETWORK", "EPIC_PK", "EPIC_RPC_URL"] := by decide

/-- What `env` writes. -/
theorem envAction_run (L : Lib) (environ : List (String × String)) (w : World L) :
    envAction L environ w
      = .cont () { w with
          stdout := w.stdout
            ++ ("EPIC_ADDRESS=" ++ Getenv environ "EPIC_ADDRESS" ++ "\n")
            ++ ("EPIC_NETWORK=" ++ Getenv environ "EPIC_NETWORK" ++ "\n")
            ++ ("EPIC_PK=" ++ Getenv environ "EPIC_PK" ++ "\n")
            ++ ("EPIC_RPC_URL=" ++ Getenv environ "EPIC_RPC_URL" ++ "\n") } := by
  simp only [envAction, sortStrings_varNames, forRange, run_bind, printf_run, run_pure]
  rfl

/-- Claim C4: for every environment the `env` command writes exactly four records to
stdout and nothing else: `NAME=value` and a newline for each of EPIC_ADDRESS,
EPIC_NETWORK, EPIC_PK, EPIC_RPC_URL, in that order, which is the strictly increasing
bytewise order of the four names as produced by `sort.Strings`; the value is the first
entry of the environment for that name, or the empty string when there is none.
EPIC_ENV is not among the names, and two environments that agree on the four names give
the same output. -/
theorem env_prints_four_sorted (L : Lib) (rpcUrl : String)
    (environ : List (String × String)) :
    sortStrings [addrVarName, pkVarName, networkVarName, rpcURLVarName]
        = ["EPIC_ADDRESS", "EPIC_NETWORK", "EPIC_PK", "EPIC_RPC_URL"]
    ∧ List.Pairwise (fun a b => stringLess a b = true)
        ["EPIC_ADDRESS", "EPIC_NETWORK", "EPIC_PK", "EPIC_RPC_URL"]
    ∧ envVarName ∉ ["EPIC_ADDRESS", "EPIC_NETWORK", "EPIC_PK", "EPIC_RPC_URL"]
    ∧ main L rpcUrl environ .env (World.init L)
        = .cont ()
            ⟨"EPIC_ADDRESS=" ++ Getenv environ "EPIC_ADDRESS" ++ "\n"
              ++ ("EPIC_NETWORK=" ++ Getenv environ "EPIC_NETWORK" ++ "\n")
              ++ ("EPIC_PK=" ++ Getenv environ "EPIC_PK" ++ "\n")
              ++ ("EPIC_RPC_URL=" ++ Getenv environ "EPIC_RPC_URL" ++ "\n"), "", []⟩
    ∧ (∀ name : String,
        Getenv environ name
          = match environ.lookup name with
            | some value => value
            | none => "")
    ∧ (∀ environ2 : List (String × String),
        (∀ name ∈ ["EPIC_ADDRESS", "EPIC_NETWORK", "EPIC_PK", "EPIC_RPC_URL"],
          Getenv environ2 name = Getenv environ name) →
        main L rpcUrl environ2 .env (World.init L)
          = main L rpcUrl environ .env (World.init L)) := by
  have hmain : ∀ env1 : List (String × String),
      main L rpcUrl env1 .env (World.init L)
        = .cont ()
            ⟨"EPIC_ADDRESS=" ++ Getenv env1 "EPIC_ADDRESS" ++ "\n"
              ++ ("EPIC_NETWORK=" ++ Getenv env1 "EPIC_NETWORK" ++ "\n")
              ++ ("EPIC_PK=" ++ Getenv env1 "EPIC_PK" ++ "\n")
              ++ ("EPIC_RPC_URL=" ++ Getenv env1 "EPIC_RPC_URL" ++ "\n"), "", []⟩ := by
    intro env1
    simp only [main, appRun, run_bind, envAction_run, run_pure, World.init]
    simp
  refine ⟨sortStrings_varNames, by decide, by decide, hmain environ, ?_, ?_⟩
  · intro name
    unfold Getenv
    cases environ.lookup name <;> rfl
  · intro environ2 h
    rw [hmain environ2, hmain environ]
    rw [h "EPIC_ADDRESS" (by simp), h "EPIC_NETWORK" (by simp), h "EPIC_PK" (by simp),
      h "EPIC_RPC_URL" (by simp)]

/-! ## Exit status after a parser error -/

/-- Claim C5 at a command line the parser rejects: `app.Run` returns the parser's error,
`main` writes `ERROR on app.Run: <err>` to stdout and returns, so nothing is written
to stderr and the exit status is 0. -/
theorem parser_error_exits_zero (L : Lib) (rpcUrl : String)
    (environ : List (String × String)) (usage err : String) :
    main L rpcUrl environ (.usageError usage err) (World.init L)
        = .cont () ⟨usage ++ ("ERROR on app.Run: " ++ err ++ "\n"), "", []⟩
    ∧ (main L rpcUrl environ (.usageError usage err) (World.init L)).exitStatus = 0
    ∧ (main L rpcUrl environ (.usageError usage err) (World.init L)).world.stderr = "" := by
  have h : main L rpcUrl environ (.usageError usage err) (World.init L)
      = .cont () ⟨usage ++ ("ERROR on app.Run: " ++ err ++ "\n"), "", []⟩ := by
    simp [main, appRun, World.init]
  rw [h]
  exact ⟨rfl, rfl, rfl⟩

/-! ## The `address` command -/

/-- What `GetAddressDetails` does with a non-empty address: one `client.GetState` call. -/
theorem GetAddressDetails_calls (L : Lib) (rpcURL addrHash : String) (w : World L)
    (h : addrHash ≠ "") :
    (GetAddressDetails L rpcURL addrHash w).world.calls
      = w.calls ++ [.getState rpcURL addrHash] := by
  cases h1 : L.GetState rpcURL addrHash with
  | error err => simp [GetAddressDetails, h, h1, Step.world]
  | ok stateM =>
    cases h2 : L.MarshalIndent stateM "" "    " <;>
      simp [GetAddressDetails, h, h1, h2, Step.world]

/-- Claim C7: the `address` command with first positional argument `a` and private key
`k`.  If `a` is non-empty the command is `GetAddressDetails` on `a`: its only call is
`client.GetState` for `a`, and `client.PublicKeyFromPrivate` is not called.  If `a` is
empty and `k` is not, `client.PublicKeyFromPrivate(k)` is called first; on its error the
command stops with that error and no `GetState` call; on its result the command goes
on as `GetAddressDetails` on the derived address, whose only further call is
`client.GetState` for that address (a non-empty one).  If both are empty the command
stops with `must provide address` and makes no call at all. -/
theorem address_resolution (L : Lib) (rpcUrl : String) (args : List String) (k : String)
    (w : World L) :
    (Args.First args ≠ "" →
      addressAction L rpcUrl args k w = GetAddressDetails L rpcUrl (Args.First args) w
      ∧ (addressAction L rpcUrl args k w).world.calls
          = w.calls ++ [.getState rpcUrl (Args.First args)])
    ∧ (Args.First args = "" → k ≠ "" →
        (∀ err, L.PublicKeyFromPrivate k = .error err →
          addressAction L rpcUrl args k w
            = .exited 1 { w with
                stderr := w.stderr ++ ("ERROR: " ++ err ++ "\n")
                calls := w.calls ++ [.publicKeyFromPrivate k] })
        ∧ (∀ address, L.PublicKeyFromPrivate k = .ok address →
            addressAction L rpcUrl args k w
              = GetAddressDetails L rpcUrl address
                  { w with calls := w.calls ++ [.publicKeyFromPrivate k] }
            ∧ (address ≠ "" →
                (addressAction L rpcUrl args k w).world.calls
                  = w.calls ++ [.publicKeyFromPrivate k, .getState rpcUrl address])))
    ∧ (Args.First args = "" → k = "" →
        addressAction L rpcUrl args k w
          = .exited 1 { w with stderr := w.stderr ++ "ERROR: must provide address\n" }) := by
  refine ⟨?_, ?_, ?_⟩
  · intro ha
    have h : addressAction L rpcUrl args k w
        = GetAddressDetails L rpcUrl (Args.First args) w := by
      simp [addressAction, ha]
    exact ⟨h, by rw [h]; exact GetAddressDetails_calls L rpcUrl _ w ha⟩
  · intro ha hk
    constructor
    · intro err herr
      simp [addressAction, ha, hk, herr]
    · intro address hok
      have h : addressAction L rpcUrl args k w
          = GetAddressDetails L rpcUrl address
              { w with calls := w.calls ++ [.publicKeyFromPrivate k] } := by
        simp [addressAction, ha, hk, hok]
      refine ⟨h, ?_⟩
      intro hne
      rw [h, GetAddressDetails_calls L rpcUrl address _ hne]
      simp
  · intro ha hk
    simp [addressAction, ha, hk, GetAddressDetails]

/-- Witness of claim C7: `address abc`, `address` with key `k1`, and `address` with
neither, on the sample library. -/
theorem address_resolution_witness :
    (addressAction sampleLib "http://localhost:8080" ["abc"] "k1"
        (World.init sampleLib)).world.calls
      = (World.init sampleLib).calls ++ [.getState "http://localhost:8080" (Args.First ["abc"])]
    ∧ (addressAction sampleLib "http://localhost:8080" [] "k1"
        (World.init sampleLib)).world.calls
      = (World.init sampleLib).calls
          ++ [.publicKeyFromPrivate "k1", .getState "http://localhost:8080" "pub-k1"]
    ∧ addressAction sampleLib "http://localhost:8080" [] "" (World.init sampleLib)
      = .exited 1 { World.init sampleLib with
          stderr := (World.init sampleLib).stderr ++ "ERROR: must provide address\n" } :=
  ⟨((address_resolution sampleLib "http://localhost:8080" ["abc"] "k1"
      (World.init sampleLib)).1 (by decide)).2,
   ((((address_resolution sampleLib "http://localhost:8080" [] "k1"
      (World.init sampleLib)).2.1 rfl (by decide)).2 "pub-k1" rfl).2 (by decide)),
   (address_resolution sampleLib "http://localhost:8080" [] ""
      (World.init sampleLib)).2.2 rfl rfl⟩

/-! ## Handler failures

Every failure inside a handler goes through `fatalExit`: the process exits with status 1
after an `ERROR:` line on stderr, and a handler that returns has written nothing to
stderr. -/

section failFast
variable {L : Lib} {α β : Type}

theorem failFast_pure (a : α) : (pure a : Proc L α).FailFast :=
  fun w => Or.inl ⟨a, w, rfl, rfl⟩

theorem failFast_printf (s : String) : (printf s : Proc L Unit).FailFast :=
  fun _ => Or.inl ⟨(), _, rfl, rfl⟩

theorem failFast_println (s : String) : (println s : Proc L Unit).FailFast :=
  fun _ => Or.inl ⟨(), _, rfl, rfl⟩

theorem failFast_logCall (c : Call L) : (logCall c : Proc L Unit).FailFast :=
  fun _ => Or.inl ⟨(), _, rfl, rfl⟩

theorem failFast_fatalExit (err : String) : (fatalExit err : Proc L α).FailFast :=
  fun _ => Or.inr ⟨_, err, rfl, rfl⟩

theorem failFast_bind (p : Proc L α) (f : α → Proc L β) (hp : p.FailFast)
    (hf : ∀ a, (f a).FailFast) : (p >>= f).FailFast := by
  intro w
  rcases hp w with ⟨a, w1, e, hs⟩ | ⟨w1, msg, e, hs⟩
  · rw [run_bind, e]
    rcases hf a w1 with ⟨b, w2, e2, hs2⟩ | ⟨w2, msg, e2, hs2⟩
    · exact Or.inl ⟨b, w2, e2, hs2.trans hs⟩
    · exact Or.inr ⟨w2, msg, e2, by rw [hs2, hs]⟩
  · rw [run_bind, e]
    exact Or.inr ⟨w1, msg, rfl, hs⟩

theorem forRange_failFast (xs : List α) (body : α → Proc L Unit)
    (h : ∀ x, (body x).FailFast) : (forRange xs body).FailFast := by
  induction xs with
  | nil => exact failFast_pure _
  | cons x xs ih => exact failFast_bind _ _ (h x) (fun _ => ih)

end failFast

/-- The `send` action fails fast. -/
theorem sendAction_failFast (L : Lib) (rpcUrl : String) (args : List String) (k : String) :
    (sendAction L rpcUrl args k).FailFast := by
  unfold sendAction clientSubmitTx
  repeat' first
    | exact failFast_pure _
    | exact failFast_fatalExit _
    | exact failFast_println _
    | exact failFast_printf _
    | exact failFast_logCall _
    | refine failFast_bind _ _ ?_ (fun _ => ?_)
    | split
    | dsimp only

/-- The `deploy` action fails fast. -/
theorem deployAction_failFast (L : Lib) (rpcUrl : String) (args : List String) (k : String) :
    (deployAction L rpcUrl args k).FailFast := by
  unfold deployAction clientSubmitTx
  repeat' first
    | exact failFast_pure _
    | exact failFast_fatalExit _
    | exact failFast_println _
    | exact failFast_printf _
    | exact failFast_logCall _
    | refine failFast_bind _ _ ?_ (fun _ => ?_)
    | split

/-- The `run` action fails fast. -/
theorem runAction_failFast (L : Lib) (rpcUrl : String) (args : List String) (k : String) :
    (runAction L rpcUrl args k).FailFast := by
  unfold runAction clientSubmitTx
  repeat' first
    | exact failFast_pure _
    | exact failFast_fatalExit _
    | exact failFast_println _
    | exact failFast_printf _
    | exact failFast_logCall _
    | refine failFast_bind _ _ ?_ (fun _ => ?_)
    | split

/-- The function `GetTransactionDetails` fails fast. -/
theorem GetTransactionDetails_failFast (L : Lib) (rpcURL txHash inputFormat : String) :
    (GetTransactionDetails L rpcURL txHash inputFormat).FailFast := by
  unfold GetTransactionDetails gotilsGetJSON
  repeat' first
    | exact failFast_pure _
    | exact failFast_fatalExit _
    | exact failFast_println _
    | exact failFast_printf _
    | exact failFast_logCall _
    | refine failFast_bind _ _ ?_ (fun _ => ?_)
    | split
    | dsimp only

/-- The function `GetAddressDetails` fails fast. -/
theorem GetAddressDetails_failFast (L : Lib) (rpcURL addrHash : String) :
    (GetAddressDetails L rpcURL addrHash).FailFast := by
  unfold GetAddressDetails clientGetState
  repeat' first
    | exact failFast_pure _
    | exact failFast_fatalExit _
    | exact failFast_println _
    | exact failFast_printf _
    | exact failFast_logCall _
    | refine failFast_bind _ _ ?_ (fun _ => ?_)
    | split
    | dsimp only

/-- The function `GetCodeState` fails fast. -/
theorem GetCodeState_failFast (L : Lib) (rpcURL key path : String) (pretty : Bool) :
    (GetCodeState L rpcURL key path pretty).FailFast := by
  unfold GetCodeState gotilsGetJSON
  repeat' first
    | exact failFast_pure _
    | exact failFast_fatalExit _
    | exact failFast_println _
    | exact failFast_printf _
    | exact failFast_logCall _
    | refine failFast_bind _ _ ?_ (fun _ => ?_)
    | split
    | dsimp only

/-- The `account create` action fails fast. -/
theorem accountCreateAction_failFast (L : Lib)  :
    (accountCreateAction L).FailFast := by
  unfold accountCreateAction clientGenerateKeyEncoded
  repeat' first
    | exact failFast_pure _
    | exact failFast_fatalExit _
    | exact failFast_println _
    | exact failFast_printf _
    | exact failFast_logCall _
    | refine failFast_bind _ _ ?_ (fun _ => ?_)
    | split

/-- The `object` action fails fast. -/
theorem objectAction_failFast (L : Lib) (rpcUrl : String) (args : List String) :
    (objectAction L rpcUrl args).FailFast := by
  unfold objectAction clientGetObjectBytesByHash
  repeat' first
    | exact failFast_pure _
    | exact failFast_fatalExit _
    | exact failFast_println _
    | exact failFast_printf _
    | exact failFast_logCall _
    | refine failFast_bind _ _ ?_ (fun _ => ?_)
    | split

/-- The `address` action fails fast. -/
theorem addressAction_failFast (L : Lib) (rpcUrl : String) (args : List String) (k : String) :
    (addressAction L rpcUrl args k).FailFast := by
  unfold addressAction clientPublicKeyFromPrivate
  repeat' first
    | exact failFast_pure _
    | exact failFast_fatalExit _
    | exact failFast_println _
    | exact failFast_printf _
    | exact failFast_logCall _
    | exact GetAddressDetails_failFast L _ _
    | refine failFast_bind _ _ ?_ (fun _ => ?_)
    | split
    | dsimp only

/-- Whenever the command line selects a handler of the table (or is rejected, or asks
for help), `main` ends by returning (exit status 0) with nothing written to stderr, or
by `fatalExit` with status 1 and an `ERROR:` line on stderr. -/
theorem main_failFast (L : Lib) (rpcUrl : String) (environ : List (String × String))
    (inv : Invocation) (hinv : ∀ command, inv ≠ .commandNotFound command) :
    (main L rpcUrl environ inv).FailFast := by
  unfold main
  refine failFast_bind _ _ ?_ ?_
  · cases inv <;> unfold appRun
    · exact failFast_bind _ _ (failFast_printf _) (fun _ => failFast_pure _)
    · exact failFast_bind _ _ (failFast_printf _) (fun _ => failFast_pure _)
    · exact absurd rfl (hinv _)
    · exact failFast_bind _ _ (GetTransactionDetails_failFast L _ _ _) (fun _ => failFast_pure _)
    · exact failFast_bind _ _ (addressAction_failFast L _ _ _) (fun _ => failFast_pure _)
    · exact failFast_bind _ _ (accountCreateAction_failFast L) (fun _ => failFast_pure _)
    · exact failFast_bind _ _ (sendAction_failFast L _ _ _) (fun _ => failFast_pure _)
    · exact failFast_bind _ _ (deployAction_failFast L _ _ _) (fun _ => failFast_pure _)
    · exact failFast_bind _ _ (runAction_failFast L _ _ _) (fun _ => failFast_pure _)
    · exact failFast_bind _ _ (GetCodeState_failFast L _ _ _ _) (fun _ => failFast_pure _)
    · exact failFast_bind _ _ (objectAction_failFast L _ _) (fun _ => failFast_pure _)
    · exact failFast_bind _ _ (forRange_failFast _ _ (fun _ => failFast_printf _))
        (fun _ => failFast_pure _)
  · intro err
    cases err
    · exact failFast_pure _
    · exact failFast_println _

/-- An unknown command ends inside `app.Run`: one line on stderr, exit status 3. -/
theorem main_commandNotFound (L : Lib) (rpcUrl : String) (environ : List (String × String))
    (command : String) (w : World L) :
    main L rpcUrl environ (.commandNotFound command) w
      = .exited 3 { w with
          stderr := w.stderr ++ ("No help topic for \x27" ++ command ++ "\x27\n") } := by
  simp [main, appRun, eprintf, osExit]

/-! ## What the other query commands write -/

/-- A successful `GetTransactionDetails` has written the `json.MarshalIndent` text of the
response and a newline, nothing else. -/
theorem GetTransactionDetails_success (L : Lib) (rpcURL txHash inputFormat : String)
    (w w1 : World L)
    (h : GetTransactionDetails L rpcURL txHash inputFormat w = .cont () w1) :
    ∃ txR bs,
      L.GetJSON (rpcURL ++ "/tx/" ++ txHash) = .ok txR
      ∧ L.MarshalIndent txR "" "    " = .ok bs
      ∧ w1.stdout = w.stdout ++ (bs ++ "\n") := by
  by_cases hx : txHash = ""
  · simp [GetTransactionDetails, hx] at h
  cases h1 : L.GetJSON (rpcURL ++ "/tx/" ++ txHash) with
  | error err => simp [GetTransactionDetails, hx, h1] at h
  | ok txR =>
    cases h2 : L.MarshalIndent txR "" "    " with
    | error err => simp [GetTransactionDetails, hx, h1, h2] at h
    | ok bs =>
      simp [GetTransactionDetails, hx, h1, h2] at h
      exact ⟨txR, bs, rfl, h2, by rw [← h]⟩

/-- A successful `GetAddressDetails` has written the `json.MarshalIndent` text of the
account state and a newline, nothing else. -/
theorem GetAddressDetails_success (L : Lib) (rpcURL addrHash : String) (w w1 : World L)
    (h : GetAddressDetails L rpcURL addrHash w = .cont () w1) :
    ∃ stateM bs,
      L.GetState rpcURL addrHash = .ok stateM
      ∧ L.MarshalIndent stateM "" "    " = .ok bs
      ∧ w1.stdout = w.stdout ++ (bs ++ "\n") := by
  by_cases hx : addrHash = ""
  · simp [GetAddressDetails, hx] at h
  cases h1 : L.GetState rpcURL addrHash with
  | error err => simp [GetAddressDetails, hx, h1] at h
  | ok stateM =>
    cases h2 : L.MarshalIndent stateM "" "    " with
    | error err => simp [GetAddressDetails, hx, h1, h2] at h
    | ok bs =>
      simp [GetAddressDetails, hx, h1, h2] at h
      exact ⟨stateM, bs, rfl, h2, by rw [← h]⟩

end Epic
